import Mathlib

/-!
Shallow embedding of the GKI tracker client (src/client/src/App.tsx).

JavaScript numbers are modelled by JSNum: either nan or an exact rational
value; every comparison involving nan is false, as in JavaScript. Division
by zero is guarded at every call site of jsDiv, so the model collapses the
JavaScript infinities into nan there. The toFixed(1) rendering and the
parseFloat reading are modelled on the plain decimal grammar (optional
sign, digits, optional fractional part); the exponent form and the leading
whitespace of parseFloat are not exercised by the program.
-/

section GKITracker

attribute [local semireducible] Rat.mul Rat.add Rat.sub Rat.inv

/-- The two glucose units of the tracker (type GlucoseUnit in App.tsx):
mgdl stands for the "mg/dL" literal and mmol for "mmol/L". -/
inductive GlucoseUnit
  | mgdl
  | mmol
deriving DecidableEq

/-- A JavaScript number: nan or an exact rational value. -/
inductive JSNum
  | nan
  | val (q : ℚ)
deriving DecidableEq

/-- The JavaScript comparison a < b on numbers; false when either side is nan. -/
def jsLt : JSNum → JSNum → Bool
  | .val a, .val b => decide (a < b)
  | _, _ => false

/-- The JavaScript comparison a >= b on numbers; false when either side is nan. -/
def jsGe : JSNum → JSNum → Bool
  | .val a, .val b => decide (b ≤ a)
  | _, _ => false

/-- The JavaScript strict equality a === b on numbers; false when either side
is nan (in particular nan === nan is false). -/
def jsEq : JSNum → JSNum → Bool
  | .val a, .val b => decide (a = b)
  | _, _ => false

/-- JavaScript division on numbers. nan propagates. Division by zero yields a
JavaScript infinity, which JSNum cannot represent; every call site in the
program guards the divisor away from zero, so the model returns nan there. -/
def jsDiv : JSNum → JSNum → JSNum
  | .nan, _ => .nan
  | _, .nan => .nan
  | .val a, .val b => if b = 0 then .nan else .val (a / b)

/-- The decimal digit character for d between 0 and 9. -/
def digitChar (d : Nat) : Char := Char.ofNat (48 + d)

/-- The numeric value of a decimal digit character. -/
def charDigit (c : Char) : Nat := c.toNat - 48

/-- Little-endian decimal digits of the second argument, with explicit fuel
as the first argument so that the recursion is structural. -/
def natDigitsRevGo : Nat → Nat → List Nat
  | 0, _ => []
  | _ + 1, 0 => []
  | fuel + 1, n + 1 => ((n + 1) % 10) :: natDigitsRevGo fuel ((n + 1) / 10)

/-- Little-endian decimal digits of n; n itself is enough fuel. -/
def natDigitsRev (n : Nat) : List Nat := natDigitsRevGo n n

/-- Decimal rendering of a natural number as a character list. -/
def natToChars (n : Nat) : List Char :=
  if n = 0 then ['0'] else ((natDigitsRev n).map digitChar).reverse

/-- Value of a little-endian decimal digit list. -/
def ofDigits10 : List Nat → Nat
  | [] => 0
  | d :: ds => d + 10 * ofDigits10 ds

/-- Model of Number.prototype.toFixed(1) on finite values: the decimal text
of x rounded to one fractional digit, ties going to the larger candidate as
the ECMAScript specification prescribes. -/
def toFixed1Str (x : ℚ) : String :=
  ⟨(if ⌊x * 10 + 1 / 2⌋ < 0 then ['-'] else []) ++
    natToChars ((⌊x * 10 + 1 / 2⌋).natAbs / 10) ++
    '.' :: [digitChar ((⌊x * 10 + 1 / 2⌋).natAbs % 10)]⟩

/-- toFixed(1) on a JSNum; NaN.toFixed(1) is the text "NaN" in JavaScript. -/
def toFixed1JS : JSNum → String
  | .nan => "NaN"
  | .val x => toFixed1Str x

/-- The specification-side notion: x rounded to one decimal place. -/
def roundTo1 (x : ℚ) : ℚ := (⌊x * 10 + 1 / 2⌋ : ℤ) / 10

/-- Reads a nonempty all-digit character list as a natural number. -/
def parseDigits (l : List Char) : Option Nat :=
  if l.isEmpty then none
  else if l.all (fun c => c.isDigit) then
    some (ofDigits10 ((l.map charDigit).reverse))
  else none

/-- Reads an unsigned decimal numeral with a mandatory dot, such as the
output of toFixed(1). -/
def parseFixed1Core (l : List Char) : Option ℚ :=
  match l.dropWhile (fun c => c != '.') with
  | [] => none
  | c :: fp =>
    if c = '.' then
      match parseDigits (l.takeWhile (fun c => c != '.')), parseDigits fp with
      | some a, some b => some ((a : ℚ) + (b : ℚ) / 10 ^ fp.length)
      | _, _ => none
    else none

/-- Reads back a decimal numeral text such as the output of toFixed(1),
with an optional leading minus sign. -/
def parseFixed1 (s : String) : Option ℚ :=
  match s.data with
  | [] => none
  | c :: rest =>
    if c = '-' then (parseFixed1Core rest).map (fun q => -q)
    else parseFixed1Core (c :: rest)

/-- True when the text has exactly one fractional digit: everything from the
first dot on is that dot followed by a single digit character. -/
def hasOneFracDigit (s : String) : Bool :=
  match s.data.dropWhile (fun c => c != '.') with
  | [c1, c2] => c1 == '.' && c2.isDigit
  | _ => false

/-- Negation on JSNum. -/
def jsNeg : JSNum → JSNum
  | .nan => .nan
  | .val q => .val (-q)

/-- Unsigned part of parseFloat. -/
def parseFloatMag (l : List Char) : JSNum :=
  let ip := l.takeWhile (fun c => c.isDigit)
  let rest := l.dropWhile (fun c => c.isDigit)
  let fp : List Char :=
    match rest with
    | '.' :: r => r.takeWhile (fun c : Char => c.isDigit)
    | _ => []
  if ip.isEmpty && fp.isEmpty then .nan
  else
    .val ((ofDigits10 ((ip.map charDigit).reverse) : ℚ) +
      (ofDigits10 ((fp.map charDigit).reverse) : ℚ) / 10 ^ fp.length)

/-- Model of the global parseFloat on the decimal grammar: optional sign,
integer digits, optional dot and fraction digits, ignoring any trailing
garbage; nan when no digit is consumed. -/
def parseFloat (s : String) : JSNum :=
  match s.data with
  | '-' :: rest => jsNeg (parseFloatMag rest)
  | '+' :: rest => parseFloatMag rest
  | l => parseFloatMag l

/-- messages.error.invalidInput from App.tsx. -/
def invalidInputMsg : String :=
  "Please enter valid glucose and ketone values. Ketones cannot be zero."

/-- messages.error.errorSavingEntry from App.tsx; the typo is in the source. -/
def errorSavingEntryMsg : String := "Failed yo save entry"

/-- messages.error.errorSavingEntryDetailed from App.tsx. -/
def errorSavingEntryDetailedMsg (reason : String) : String :=
  "Failed to save entry: " ++ reason

/-- messages.error.errorSavingEntryInvalidKeyType from App.tsx. -/
def errorSavingEntryInvalidKeyTypeMsg (actualType : String) : String :=
  "Failed to save entry: expected a number, but got a " ++ actualType

/-- messages.error.errorDeletingEntryDetailed from App.tsx. -/
def errorDeletingEntryDetailedMsg (reason : String) : String :=
  "Failed to delete entry: " ++ reason

/-- convertGlucoseToMmol from App.tsx: divide by 18 when the unit is mg/dL,
return the value unchanged otherwise. -/
def convertGlucoseToMmol (glucose : JSNum) (unit : GlucoseUnit) : JSNum :=
  match unit with
  | .mgdl => jsDiv glucose (.val 18)
  | .mmol => glucose

/-- calculateGKI from App.tsx: convert glucose to mmol/L, divide by the
ketone value, render with toFixed(1). -/
def calculateGKI (glucoseValue ketonesValue : JSNum) (unit : GlucoseUnit) :
    String :=
  toFixed1JS (jsDiv (convertGlucoseToMmol glucoseValue unit) ketonesValue)

/-- The five ketosis zones, the keys of messages.ketosisZone in App.tsx. -/
inductive KetosisZone
  | deep
  | moderate
  | light
  | mild
  | none
deriving DecidableEq

/-- The record getGKIZone returns: a zone key and a colour class. -/
structure ZoneColor where
  zone : KetosisZone
  color : String
deriving DecidableEq

/-- getGKIZone from App.tsx, with the early returns written as nested
conditionals; the comparisons are the JavaScript ones, so a nan input fails
every test and falls through to the final return. -/
def getGKIZone (gki : JSNum) : ZoneColor :=
  if jsLt gki (.val 1) then ⟨.deep, "bg-purple-500"⟩
  else if jsGe gki (.val 1) && jsLt gki (.val 3) then ⟨.moderate, "bg-blue-500"⟩
  else if jsGe gki (.val 3) && jsLt gki (.val 6) then ⟨.light, "bg-green-500"⟩
  else if jsGe gki (.val 6) && jsLt gki (.val 9) then ⟨.mild, "bg-yellow-500"⟩
  else ⟨.none, "bg-red-500"⟩

/-- A JavaScript value as the IndexedDB key request may produce it, enough to
express the typeof checks of addEntry. -/
inductive JSValue
  | num (n : ℚ)
  | str (s : String)
  | bool (b : Bool)
  | undef
  | obj
deriving DecidableEq

/-- The typeof operator on the modelled values. -/
def jsTypeof : JSValue → String
  | .num _ => "number"
  | .str _ => "string"
  | .bool _ => "boolean"
  | .undef => "undefined"
  | .obj => "object"

/-- Behaviour of the underlying database machinery during one addEntry call:
openDatabase rejects, or the add request fires onerror, or it fires
onsuccess with the given key in request.result. -/
inductive AddOutcome
  | openError (msg : String)
  | requestError
  | success (key : JSValue)
deriving DecidableEq

/-- addEntry from App.tsx as a function of the store behaviour. The onsuccess
checks come in source order: an undefined key rejects with the plain save
error, a key whose typeof is not number rejects with the message naming the
observed type, and a numeric key resolves. -/
def addEntry : AddOutcome → Except String ℚ
  | .openError msg => .error msg
  | .requestError => .error "Failed to add entry"
  | .success .undef => .error errorSavingEntryMsg
  | .success (.num n) => .ok n
  | .success key => .error (errorSavingEntryInvalidKeyTypeMsg (jsTypeof key))

/-- Behaviour of the underlying database machinery during one deleteEntry
call. -/
inductive DeleteOutcome
  | openError (msg : String)
  | requestError
  | success
deriving DecidableEq

/-- Store-level actions a deleteEntry call performs. -/
inductive DBEffect
  | openDB
  | storeDelete (id : ℚ)
deriving DecidableEq

/-- deleteEntry from App.tsx: an undefined id returns resolved before the
database is even opened; otherwise the database is opened and the delete
request is issued, rejecting with the literal failure message on onerror. -/
def deleteEntry (id : Option ℚ) (outcome : DeleteOutcome) :
    Except String Unit × List DBEffect :=
  match id with
  | none => (.ok (), [])
  | some i =>
    match outcome with
    | .openError msg => (.error msg, [.openDB])
    | .requestError => (.error "Failed to delete entry", [.openDB, .storeDelete i])
    | .success => (.ok (), [.openDB, .storeDelete i])

/-- interface Entry from App.tsx. -/
structure Entry where
  id : Option ℚ
  glucose : JSNum
  glucoseUnit : GlucoseUnit
  ketones : JSNum
  gki : String
  timestamp : Int
deriving DecidableEq

/-- The React state the two handlers read and write: the two text fields,
the selected unit and the displayed entries list. -/
structure AppState where
  glucose : String
  ketones : String
  glucoseUnit : GlucoseUnit
  entries : List Entry
deriving DecidableEq

/-- User-visible and store-directed effects of the handlers. -/
inductive Effect
  | alert (msg : String)
  | storeAdd (e : Entry)
deriving DecidableEq

/-- The validation condition at the top of handleSubmit: a falsy (empty)
glucose or ketones field, or a ketones field whose parseFloat is strictly
equal to 0. -/
def submitRejected (st : AppState) : Bool :=
  st.glucose == "" || st.ketones == "" || jsEq (parseFloat st.ketones) (.val 0)

/-- handleSubmit from App.tsx as a state transition parameterised by the
store outcome and the current time. On validation failure it alerts the
combined message and stops; otherwise it builds the new entry, attempts the
store add, and either prepends the entry (with the assigned id) and clears
the two fields, or alerts the detailed save error leaving the state alone. -/
def handleSubmit (st : AppState) (outcome : AddOutcome) (now : Int) :
    AppState × List Effect :=
  if submitRejected st then
    (st, [.alert invalidInputMsg])
  else
    let glucoseValue := parseFloat st.glucose
    let ketonesValue := parseFloat st.ketones
    let gkiValue := calculateGKI glucoseValue ketonesValue st.glucoseUnit
    let newEntry : Entry :=
      { id := none, glucose := glucoseValue, glucoseUnit := st.glucoseUnit,
        ketones := ketonesValue, gki := gkiValue, timestamp := now }
    match addEntry outcome with
    | .ok i =>
      ({ st with entries := { newEntry with id := some i } :: st.entries,
                 glucose := "", ketones := "" },
       [.storeAdd newEntry])
    | .error msg =>
      (st, [.storeAdd newEntry, .alert (errorSavingEntryDetailedMsg msg)])

/-- handleDelete from App.tsx: nothing happens for an undefined id or when
the confirmation dialog is declined; otherwise deleteEntry runs and on
success the entry with this id is filtered out of the list, while on failure
the detailed delete error is alerted and the list is untouched (every
rejection carries an Error, so the detailed branch of the source is the one
taken). -/
def handleDelete (st : AppState) (id : Option ℚ) (confirmed : Bool)
    (outcome : DeleteOutcome) : AppState × List Effect :=
  match id with
  | none => (st, [])
  | some i =>
    if confirmed then
      match (deleteEntry (some i) outcome).1 with
      | .ok _ =>
        ({ st with entries := st.entries.filter (fun e => e.id != some i) }, [])
      | .error msg =>
        (st, [.alert (errorDeletingEntryDetailedMsg msg)])
    else (st, [])

/-- The order the startup sort call establishes: the comparator on line 80 of
App.tsx returns b.timestamp - a.timestamp, so a sorts before b exactly when
the timestamp of a is at least the timestamp of b. -/
def tsGE (a b : Entry) : Prop := b.timestamp ≤ a.timestamp

instance : DecidableRel tsGE :=
  fun a b => inferInstanceAs (Decidable (b.timestamp ≤ a.timestamp))

instance : IsTotal Entry tsGE := ⟨fun a b => le_total b.timestamp a.timestamp⟩

instance : IsTrans Entry tsGE := ⟨fun _ _ _ h1 h2 => le_trans h2 h1⟩

/-- The list initDB displays: the retrieved entries sorted by timestamp
descending. Array.prototype.sort leaves the algorithm unspecified; insertion
sort is one implementation of the comparator contract. -/
def initDB (stored : List Entry) : List Entry := List.insertionSort tsGE stored

lemma charDigit_digitChar : ∀ d : Nat, d < 10 → charDigit (digitChar d) = d := by
  decide

lemma digitChar_isDigit : ∀ d : Nat, d < 10 → (digitChar d).isDigit = true := by
  decide

lemma isDigit_ne_dot (c : Char) (h : c.isDigit = true) : c ≠ '.' := by
  intro he
  subst he
  exact absurd h (by decide)

lemma isDigit_ne_dash (c : Char) (h : c.isDigit = true) : c ≠ '-' := by
  intro he
  subst he
  exact absurd h (by decide)

lemma natDigitsRevGo_lt : ∀ fuel n : Nat, ∀ d ∈ natDigitsRevGo fuel n, d < 10 := by
  intro fuel
  induction fuel with
  | zero => intro n d hd; simp [natDigitsRevGo] at hd
  | succ f ih =>
    intro n d hd
    match n with
    | 0 => simp [natDigitsRevGo] at hd
    | m + 1 =>
      rw [natDigitsRevGo] at hd
      rcases List.mem_cons.mp hd with h | h
      · subst h; exact Nat.mod_lt _ (by norm_num)
      · exact ih _ _ h

lemma ofDigits10_natDigitsRevGo :
    ∀ fuel n : Nat, n ≤ fuel → ofDigits10 (natDigitsRevGo fuel n) = n := by
  intro fuel
  induction fuel with
  | zero => intro n h; interval_cases n; rfl
  | succ f ih =>
    intro n h
    match n with
    | 0 => rfl
    | m + 1 =>
      rw [natDigitsRevGo, ofDigits10, ih]
      · exact Nat.mod_add_div (m + 1) 10
      · have hlt : (m + 1) / 10 < m + 1 := Nat.div_lt_self (Nat.succ_pos m) (by norm_num)
        omega

lemma natToChars_ne_nil (m : Nat) : natToChars m ≠ [] := by
  unfold natToChars
  by_cases h : m = 0
  · rw [if_pos h]; simp
  · rw [if_neg h]
    simp only [ne_eq, List.reverse_eq_nil_iff, List.map_eq_nil_iff]
    obtain ⟨k, rfl⟩ := Nat.exists_eq_succ_of_ne_zero h
    simp [natDigitsRev, natDigitsRevGo]

lemma natToChars_all_digit (m : Nat) : ∀ c ∈ natToChars m, c.isDigit = true := by
  intro c hc
  unfold natToChars at hc
  by_cases h : m = 0
  · rw [if_pos h] at hc
    simp only [List.mem_singleton] at hc
    subst hc
    decide
  · rw [if_neg h] at hc
    rw [List.mem_reverse] at hc
    obtain ⟨d, hd, rfl⟩ := List.mem_map.mp hc
    exact digitChar_isDigit d (natDigitsRevGo_lt m m d hd)

lemma parseDigits_natToChars (m : Nat) : parseDigits (natToChars m) = some m := by
  unfold parseDigits
  rw [if_neg (by simpa [List.isEmpty_iff] using natToChars_ne_nil m)]
  rw [if_pos (List.all_eq_true.mpr fun c hc => natToChars_all_digit m c hc)]
  congr 1
  by_cases h : m = 0
  · subst h; rfl
  · rw [natToChars, if_neg h, List.map_reverse, List.reverse_reverse, List.map_map]
    have hmap : (natDigitsRev m).map (charDigit ∘ digitChar) = natDigitsRev m := by
      have h1 : (natDigitsRev m).map (charDigit ∘ digitChar) = (natDigitsRev m).map id :=
        List.map_congr_left fun d hd => charDigit_digitChar d (natDigitsRevGo_lt m m d hd)
      rw [h1, List.map_id]
    rw [hmap]
    exact ofDigits10_natDigitsRevGo m m le_rfl

lemma takeWhile_digits_dot (A B : List Char) (h : ∀ c ∈ A, c.isDigit = true) :
    (A ++ '.' :: B).takeWhile (fun c => c != '.') = A := by
  induction A with
  | nil =>
    simp only [List.nil_append]
    exact List.takeWhile_cons_of_neg (by decide)
  | cons a as ih =>
    have ha : (a != '.') = true := by
      simpa [bne_iff_ne] using isDigit_ne_dot a (h a (List.mem_cons_self a as))
    rw [List.cons_append, List.takeWhile_cons, if_pos ha,
      ih fun c hc => h c (List.mem_cons_of_mem a hc)]

lemma dropWhile_digits_dot (A B : List Char) (h : ∀ c ∈ A, c.isDigit = true) :
    (A ++ '.' :: B).dropWhile (fun c => c != '.') = '.' :: B := by
  induction A with
  | nil =>
    simp only [List.nil_append]
    exact List.dropWhile_cons_of_neg (by decide)
  | cons a as ih =>
    have ha : (a != '.') = true := by
      simpa [bne_iff_ne] using isDigit_ne_dot a (h a (List.mem_cons_self a as))
    rw [List.cons_append, List.dropWhile_cons, if_pos ha,
      ih fun c hc => h c (List.mem_cons_of_mem a hc)]

lemma parseDigits_single_digit (d : Nat) (hd : d < 10) :
    parseDigits [digitChar d] = some d := by
  unfold parseDigits
  rw [if_neg (by simp)]
  rw [if_pos (by simpa using digitChar_isDigit d hd)]
  simp [ofDigits10, charDigit_digitChar d hd]

lemma parseFixed1Core_digits (A : List Char) (m d : Nat) (hd : d < 10)
    (hA : parseDigits A = some m) (hAd : ∀ c ∈ A, c.isDigit = true) :
    parseFixed1Core (A ++ '.' :: [digitChar d]) = some ((m : ℚ) + (d : ℚ) / 10) := by
  unfold parseFixed1Core
  rw [dropWhile_digits_dot A _ hAd]
  simp only [takeWhile_digits_dot A _ hAd, hA, parseDigits_single_digit d hd,
    List.length_singleton, pow_one, eq_self_iff_true, if_true]

lemma parseFixed1_digit_head (c : Char) (t : List Char) (hc : c.isDigit = true) :
    parseFixed1 (String.mk (c :: t)) = parseFixed1Core (c :: t) := by
  show parseFixed1 ⟨c :: t⟩ = parseFixed1Core (c :: t)
  unfold parseFixed1
  simp only [String.data]
  rw [if_neg (isDigit_ne_dash c hc)]

lemma cast_div10_add_mod10 (a : Nat) :
    ((a / 10 : Nat) : ℚ) + ((a % 10 : Nat) : ℚ) / 10 = (a : ℚ) / 10 := by
  have h : 10 * (a / 10) + a % 10 = a := Nat.div_add_mod a 10
  have h2 : 10 * ((a / 10 : Nat) : ℚ) + ((a % 10 : Nat) : ℚ) = (a : ℚ) := by
    exact_mod_cast congrArg (fun n : Nat => (n : ℚ)) h
  field_simp
  linarith

lemma parseFixed1_toFixed1Str (x : ℚ) (hx : 0 < x) :
    parseFixed1 (toFixed1Str x) = some (roundTo1 x) ∧
    hasOneFracDigit (toFixed1Str x) = true := by
  have hn : 0 ≤ ⌊x * 10 + 1 / 2⌋ := by
    rw [Int.le_floor]
    push_cast
    linarith
  obtain ⟨a, hna⟩ : ∃ a : Nat, (a : ℤ) = ⌊x * 10 + 1 / 2⌋ :=
    ⟨⌊x * 10 + 1 / 2⌋.natAbs, Int.natAbs_of_nonneg hn⟩
  have habs : (⌊x * 10 + 1 / 2⌋).natAbs = a := by omega
  have hstr : toFixed1Str x = ⟨natToChars (a / 10) ++ '.' :: [digitChar (a % 10)]⟩ := by
    unfold toFixed1Str
    rw [if_neg (not_lt.mpr hn), habs, List.nil_append]
  obtain ⟨c, A2, hA⟩ := List.exists_cons_of_ne_nil (natToChars_ne_nil (a / 10))
  have hmod : a % 10 < 10 := Nat.mod_lt _ (by norm_num)
  have hcdig : c.isDigit = true :=
    natToChars_all_digit (a / 10) c (by rw [hA]; exact List.mem_cons_self c A2)
  constructor
  · rw [hstr]
    have hform : natToChars (a / 10) ++ '.' :: [digitChar (a % 10)] =
        c :: (A2 ++ '.' :: [digitChar (a % 10)]) := by
      rw [hA, List.cons_append]
    rw [hform, parseFixed1_digit_head c _ hcdig, ← hform]
    rw [parseFixed1Core_digits _ _ _ hmod (parseDigits_natToChars (a / 10))
      (natToChars_all_digit (a / 10))]
    rw [cast_div10_add_mod10 a]
    unfold roundTo1
    congr 1
    rw [← hna]
    push_cast
    ring
  · rw [hstr]
    unfold hasOneFracDigit
    simp only [String.data]
    rw [dropWhile_digits_dot _ _ (natToChars_all_digit (a / 10))]
    simpa using digitChar_isDigit _ hmod

lemma getGKIZone_zone_eq (q : ℚ) :
    (getGKIZone (JSNum.val q)).zone =
      if q < 1 then KetosisZone.deep
      else if q < 3 then KetosisZone.moderate
      else if q < 6 then KetosisZone.light
      else if q < 9 then KetosisZone.mild
      else KetosisZone.none := by
  by_cases h1 : q < 1
  · rw [if_pos h1]
    simp [getGKIZone, jsLt, jsGe, h1]
  · by_cases h2 : q < 3
    · rw [if_neg h1, if_pos h2]
      simp [getGKIZone, jsLt, jsGe, h1, h2, not_lt.mp h1]
    · by_cases h3 : q < 6
      · rw [if_neg h1, if_neg h2, if_pos h3]
        simp [getGKIZone, jsLt, jsGe, h1, h2, h3, not_lt.mp h2]
      · by_cases h4 : q < 9
        · rw [if_neg h1, if_neg h2, if_neg h3, if_pos h4]
          simp [getGKIZone, jsLt, jsGe, h1, h2, h3, h4, not_lt.mp h3]
        · rw [if_neg h1, if_neg h2, if_neg h3, if_neg h4]
          simp [getGKIZone, jsLt, jsGe, h1, h2, h3, h4]

/-- A concrete entry with timestamp 1, used by concrete instantiations. -/
def entryT1 : Entry := ⟨some 1, JSNum.val 5, GlucoseUnit.mmol, JSNum.val 2, "2.5", 1⟩

/-- A concrete entry with timestamp 2, used by concrete instantiations. -/
def entryT2 : Entry := ⟨some 2, JSNum.val 5, GlucoseUnit.mmol, JSNum.val 2, "2.5", 2⟩

/-- C1: getGKIZone is total and, on the non-negative rationals, its five
zones are exactly the half-open bands with inclusive lower bounds: below 1
deep therapeutic ketosis, from 1 to 3 moderate, from 3 to 6 light, from 6
to 9 mild, and from 9 on not in ketosis; the bands are mutually exclusive
by the iff characterisations, and the boundary values 1, 3, 6 and 9 each
classify into the upper band. -/
theorem getGKIZone_partition (q : ℚ) (h : 0 ≤ q) :
    ((getGKIZone (JSNum.val q)).zone = KetosisZone.deep ↔ q < 1) ∧
    ((getGKIZone (JSNum.val q)).zone = KetosisZone.moderate ↔ 1 ≤ q ∧ q < 3) ∧
    ((getGKIZone (JSNum.val q)).zone = KetosisZone.light ↔ 3 ≤ q ∧ q < 6) ∧
    ((getGKIZone (JSNum.val q)).zone = KetosisZone.mild ↔ 6 ≤ q ∧ q < 9) ∧
    ((getGKIZone (JSNum.val q)).zone = KetosisZone.none ↔ 9 ≤ q) ∧
    (getGKIZone (JSNum.val 1)).zone = KetosisZone.moderate ∧
    (getGKIZone (JSNum.val 3)).zone = KetosisZone.light ∧
    (getGKIZone (JSNum.val 6)).zone = KetosisZone.mild ∧
    (getGKIZone (JSNum.val 9)).zone = KetosisZone.none := by
  refine ⟨?_, ?_, ?_, ?_, ?_, by decide, by decide, by decide, by decide⟩ <;>
    · rw [getGKIZone_zone_eq q]
      split_ifs <;> simp_all <;> intros <;> linarith

/-- Witness for C1 at the concrete input 0. -/
theorem getGKIZone_partition_witness :
    (0 : ℚ) ≤ 0 ∧ ((getGKIZone (JSNum.val 0)).zone = KetosisZone.deep ↔ (0 : ℚ) < 1) :=
  ⟨le_refl 0, (getGKIZone_partition 0 (le_refl 0)).1⟩

/-- C10: getGKIZone is total over all JavaScript numbers, not only the
non-negative ones: every negative value classifies as the deep therapeutic
ketosis zone, and a nan input (such as parseFloat applied to a malformed
stored gki text) fails every comparison and classifies as not in ketosis. -/
theorem getGKIZone_total_all_reals :
    (∀ q : ℚ, q < 0 → (getGKIZone (JSNum.val q)).zone = KetosisZone.deep) ∧
    (getGKIZone JSNum.nan).zone = KetosisZone.none ∧
    (getGKIZone (parseFloat "garbled")).zone = KetosisZone.none := by
  refine ⟨fun q hq => ?_, by decide, by decide⟩
  rw [getGKIZone_zone_eq q, if_pos (by linarith)]

/-- Witness for C10 at the concrete input -1. -/
theorem getGKIZone_total_all_reals_witness :
    (-1 : ℚ) < 0 ∧ (getGKIZone (JSNum.val (-1))).zone = KetosisZone.deep :=
  ⟨by norm_num, getGKIZone_total_all_reals.1 (-1) (by norm_num)⟩

/-- C2: for every positive glucose and ketones and either unit, calculateGKI
renders the converted glucose divided by the ketone value as text with
exactly one fractional digit, and that text parses back to exactly that
quotient rounded to one decimal. -/
theorem calculateGKI_parse_round (g k : ℚ) (u : GlucoseUnit)
    (hg : 0 < g) (hk : 0 < k) :
    ∃ q : ℚ, convertGlucoseToMmol (JSNum.val g) u = JSNum.val q ∧
      calculateGKI (JSNum.val g) (JSNum.val k) u = toFixed1Str (q / k) ∧
      parseFixed1 (calculateGKI (JSNum.val g) (JSNum.val k) u) = some (roundTo1 (q / k)) ∧
      hasOneFracDigit (calculateGKI (JSNum.val g) (JSNum.val k) u) = true := by
  have hk0 : k ≠ 0 := ne_of_gt hk
  have key : ∀ q : ℚ, convertGlucoseToMmol (JSNum.val g) u = JSNum.val q →
      calculateGKI (JSNum.val g) (JSNum.val k) u = toFixed1Str (q / k) := by
    intro q hconv
    simp only [calculateGKI, hconv, jsDiv, if_neg hk0, toFixed1JS]
  cases u with
  | mgdl =>
    have hconv : convertGlucoseToMmol (JSNum.val g) GlucoseUnit.mgdl = JSNum.val (g / 18) := by
      simp only [convertGlucoseToMmol, jsDiv, if_neg (by norm_num : (18 : ℚ) ≠ 0)]
    have hstr := key (g / 18) hconv
    have hpr := parseFixed1_toFixed1Str (g / 18 / k) (by positivity)
    exact ⟨g / 18, hconv, hstr, by rw [hstr]; exact hpr.1, by rw [hstr]; exact hpr.2⟩
  | mmol =>
    have hconv : convertGlucoseToMmol (JSNum.val g) GlucoseUnit.mmol = JSNum.val g := rfl
    have hstr := key g hconv
    have hpr := parseFixed1_toFixed1Str (g / k) (by positivity)
    exact ⟨g, hconv, hstr, by rw [hstr]; exact hpr.1, by rw [hstr]; exact hpr.2⟩

/-- Witness for C2 at glucose 90 mg/dL and ketones 3. -/
theorem calculateGKI_parse_round_witness :
    (0 : ℚ) < 90 ∧ (0 : ℚ) < 3 ∧
    (∃ q : ℚ, convertGlucoseToMmol (JSNum.val 90) GlucoseUnit.mgdl = JSNum.val q ∧
      calculateGKI (JSNum.val 90) (JSNum.val 3) GlucoseUnit.mgdl = toFixed1Str (q / 3) ∧
      parseFixed1 (calculateGKI (JSNum.val 90) (JSNum.val 3) GlucoseUnit.mgdl) =
        some (roundTo1 (q / 3)) ∧
      hasOneFracDigit (calculateGKI (JSNum.val 90) (JSNum.val 3) GlucoseUnit.mgdl) = true) :=
  ⟨by norm_num, by norm_num,
    calculateGKI_parse_round 90 3 GlucoseUnit.mgdl (by norm_num) (by norm_num)⟩

/-- C3: convertGlucoseToMmol divides by the fixed constant 18 exactly when
the unit is mg/dL and returns the value unchanged when the unit is mmol/L;
concretely 90 mg/dL converts to 5 mmol/L and with ketones 3 the computed
gki text is "1.7". -/
theorem convertGlucoseToMmol_spec :
    (∀ g : ℚ, convertGlucoseToMmol (JSNum.val g) GlucoseUnit.mgdl = JSNum.val (g / 18)) ∧
    (∀ x : JSNum, convertGlucoseToMmol x GlucoseUnit.mmol = x) ∧
    convertGlucoseToMmol (JSNum.val 90) GlucoseUnit.mgdl = JSNum.val 5 ∧
    calculateGKI (JSNum.val 90) (JSNum.val 3) GlucoseUnit.mgdl = "1.7" := by
  refine ⟨fun g => ?_, fun x => rfl, by decide, by decide⟩
  simp only [convertGlucoseToMmol, jsDiv, if_neg (by norm_num : (18 : ℚ) ≠ 0)]

/-- C4 counterexample: with glucose "100" and the non-numeric, non-empty
ketones text "abc" the submission is not rejected, because parseFloat of
"abc" is nan and the check nan === 0 is false: the validation alert does
not fire and one entry is created, refuting the claim that non-numeric
input is rejected before any store interaction. -/
theorem handleSubmit_nonNumeric_counterexample :
    parseFloat "abc" = JSNum.nan ∧
    submitRejected ⟨"100", "abc", GlucoseUnit.mgdl, []⟩ = false ∧
    (handleSubmit ⟨"100", "abc", GlucoseUnit.mgdl, []⟩
        (AddOutcome.success (JSValue.num 1)) 0).2 ≠ [Effect.alert invalidInputMsg] ∧
    ((handleSubmit ⟨"100", "abc", GlucoseUnit.mgdl, []⟩
        (AddOutcome.success (JSValue.num 1)) 0).1.entries).length = 1 := by
  refine ⟨by decide, by decide, by decide, by decide⟩

/-- C4 amended: a submission is rejected, with the single combined
validation message and no computation, no store interaction and no entry
created, exactly in the cases the source condition covers: empty glucose
text, empty ketones text, or a ketones text whose parseFloat is strictly
equal to 0; a non-numeric but non-empty text parses to nan, which the
strict zero check does not catch. -/
theorem handleSubmit_rejects_invalid (st : AppState) (o : AddOutcome) (now : Int)
    (h : st.glucose = "" ∨ st.ketones = "" ∨
      jsEq (parseFloat st.ketones) (JSNum.val 0) = true) :
    handleSubmit st o now = (st, [Effect.alert invalidInputMsg]) := by
  have hb : submitRejected st = true := by
    rcases h with h | h | h <;> simp [submitRejected, h]
  unfold handleSubmit
  rw [if_pos hb]

/-- Witness for the amended C4: glucose 100 with ketones text "0" is
rejected with the combined message and the state is unchanged. -/
theorem handleSubmit_rejects_invalid_witness :
    jsEq (parseFloat "0") (JSNum.val 0) = true ∧
    handleSubmit ⟨"100", "0", GlucoseUnit.mgdl, []⟩ (AddOutcome.success (JSValue.num 1)) 0 =
      (⟨"100", "0", GlucoseUnit.mgdl, []⟩, [Effect.alert invalidInputMsg]) :=
  ⟨by decide, handleSubmit_rejects_invalid _ _ _ (Or.inr (Or.inr (by decide)))⟩

/-- C5: when the add request succeeds but the assigned key is unusable,
addEntry distinguishes the two cases: a missing (undefined) key fails with
the plain save error, and a present non-numeric key fails with the message
naming the observed typeof; for a text key that message contains the words
"expected a number, but got a string". A numeric key resolves with that
number. -/
theorem addEntry_key_validation :
    addEntry (AddOutcome.success JSValue.undef) = Except.error errorSavingEntryMsg ∧
    (∀ s, addEntry (AddOutcome.success (JSValue.str s)) =
      Except.error (errorSavingEntryInvalidKeyTypeMsg "string")) ∧
    (∀ b, addEntry (AddOutcome.success (JSValue.bool b)) =
      Except.error (errorSavingEntryInvalidKeyTypeMsg "boolean")) ∧
    addEntry (AddOutcome.success JSValue.obj) =
      Except.error (errorSavingEntryInvalidKeyTypeMsg "object") ∧
    List.IsInfix ("expected a number, but got a string").data
      (errorSavingEntryInvalidKeyTypeMsg "string").data ∧
    (∀ n, addEntry (AddOutcome.success (JSValue.num n)) = Except.ok n) := by
  refine ⟨rfl, fun s => rfl, fun b => rfl, rfl, ?_, fun n => rfl⟩
  exact ⟨("Failed to save entry: ").data, [], by decide⟩

/-- C6: store failures are atomic for the in-memory list: when the
validation has passed and addEntry fails, handleSubmit leaves the whole
state (entries list and both text fields) unchanged and reports the failure
only through the detailed save alert; when deleteEntry fails inside a
confirmed handleDelete, the state is unchanged and the only effect is the
detailed delete alert. -/
theorem storeFailure_atomic :
    (∀ (st : AppState) (o : AddOutcome) (now : Int) (msg : String),
      submitRejected st = false → addEntry o = Except.error msg →
      (handleSubmit st o now).1 = st ∧
      Effect.alert (errorSavingEntryDetailedMsg msg) ∈ (handleSubmit st o now).2) ∧
    (∀ (st : AppState) (i : ℚ) (o : DeleteOutcome) (msg : String),
      (deleteEntry (some i) o).1 = Except.error msg →
      handleDelete st (some i) true o =
        (st, [Effect.alert (errorDeletingEntryDetailedMsg msg)])) := by
  constructor
  · intro st o now msg hv he
    constructor
    · simp only [handleSubmit, hv, Bool.false_eq_true, if_false, he]
    · simp only [handleSubmit, hv, Bool.false_eq_true, if_false, he]
      simp
  · intro st i o msg he
    simp only [handleDelete, if_true, he]

/-- Witness for C6: a failing add request and a failing delete request at a
concrete state leave the state untouched and alert the detailed message. -/
theorem storeFailure_atomic_witness :
    ((handleSubmit ⟨"90", "3", GlucoseUnit.mgdl, []⟩ AddOutcome.requestError 0).1 =
        ⟨"90", "3", GlucoseUnit.mgdl, []⟩ ∧
      Effect.alert (errorSavingEntryDetailedMsg "Failed to add entry") ∈
        (handleSubmit ⟨"90", "3", GlucoseUnit.mgdl, []⟩ AddOutcome.requestError 0).2) ∧
    handleDelete ⟨"90", "3", GlucoseUnit.mgdl, []⟩ (some 1) true DeleteOutcome.requestError =
      (⟨"90", "3", GlucoseUnit.mgdl, []⟩,
        [Effect.alert (errorDeletingEntryDetailedMsg "Failed to delete entry")]) :=
  ⟨storeFailure_atomic.1 ⟨"90", "3", GlucoseUnit.mgdl, []⟩ AddOutcome.requestError 0
      "Failed to add entry" (by decide) rfl,
    storeFailure_atomic.2 ⟨"90", "3", GlucoseUnit.mgdl, []⟩ 1 DeleteOutcome.requestError
      "Failed to delete entry" rfl⟩

/-- C7: deleteEntry with an undefined id is a no-op that resolves without
opening the database or issuing any delete; with a defined id it opens the
database and issues the delete for that identifier, resolving on success
and failing with the deletion error when the delete request cannot
complete. -/
theorem deleteEntry_spec :
    (∀ o, deleteEntry none o = (Except.ok (), [])) ∧
    (∀ i : ℚ, deleteEntry (some i) DeleteOutcome.success =
      (Except.ok (), [DBEffect.openDB, DBEffect.storeDelete i])) ∧
    (∀ i : ℚ, deleteEntry (some i) DeleteOutcome.requestError =
      (Except.error "Failed to delete entry", [DBEffect.openDB, DBEffect.storeDelete i])) :=
  ⟨fun o => rfl, fun i => rfl, fun i => rfl⟩

/-- C8: the displayed history is reverse-chronological: the startup list is
a permutation of the stored entries, sorted pairwise by timestamp
descending, and for two entries with strictly ordered timestamps every
position of the later entry precedes every position of the earlier one. -/
theorem initDB_reverseChronological (stored : List Entry) :
    (initDB stored).Perm stored ∧
    List.Sorted tsGE (initDB stored) ∧
    (∀ e1 e2 : Entry, e1.timestamp < e2.timestamp →
      ∀ i j : Fin (initDB stored).length,
        (initDB stored).get i = e1 → (initDB stored).get j = e2 →
        (j : ℕ) < (i : ℕ)) := by
  have hsorted : List.Sorted tsGE (initDB stored) := List.sorted_insertionSort tsGE stored
  refine ⟨List.perm_insertionSort tsGE stored, hsorted, ?_⟩
  intro e1 e2 ht i j hi hj
  by_contra hle
  push_neg at hle
  rcases lt_or_eq_of_le hle with hlt | heq
  · have hrel := hsorted.rel_get_of_lt (Fin.lt_def.mpr hlt)
    rw [hi, hj] at hrel
    exact absurd ht (not_lt.mpr hrel)
  · have : i = j := Fin.ext heq
    subst this
    rw [hi] at hj
    subst hj
    exact absurd ht (lt_irrefl _)

/-- Witness for C8: with stored entries at timestamps 1 and 2, the entry
with timestamp 2 at index 0 precedes the entry with timestamp 1 at
index 1. -/
theorem initDB_reverseChronological_witness :
    entryT1.timestamp < entryT2.timestamp ∧ (0 : ℕ) < 1 :=
  ⟨by decide,
    (initDB_reverseChronological [entryT1, entryT2]).2.2 entryT1 entryT2 (by decide)
      ⟨1, by decide⟩ ⟨0, by decide⟩ (by decide) (by decide)⟩

/-- C9: entries are only created or deleted, never updated: when validation
passes and the store assigns the numeric key, handleSubmit prepends exactly
one new entry, whose gki text is computed once at creation, and leaves
every pre-existing entry unchanged field for field; a confirmed successful
delete keeps exactly the entries whose id differs from the given id,
unchanged. -/
theorem entries_created_not_updated :
    (∀ (st : AppState) (now : Int) (key : ℚ),
      submitRejected st = false →
      (handleSubmit st (AddOutcome.success (JSValue.num key)) now).1.entries =
        { id := some key, glucose := parseFloat st.glucose,
          glucoseUnit := st.glucoseUnit, ketones := parseFloat st.ketones,
          gki := calculateGKI (parseFloat st.glucose) (parseFloat st.ketones) st.glucoseUnit,
          timestamp := now } :: st.entries) ∧
    (∀ (st : AppState) (i : ℚ),
      (handleDelete st (some i) true DeleteOutcome.success).1.entries =
        st.entries.filter (fun e => e.id != some i)) := by
  constructor
  · intro st now key hv
    simp only [handleSubmit, hv, Bool.false_eq_true, if_false, addEntry]
  · intro st i
    simp only [handleDelete, if_true, deleteEntry]

/-- Witness for C9 at a concrete state with one pre-existing entry. -/
theorem entries_created_not_updated_witness :
    (handleSubmit ⟨"90", "3", GlucoseUnit.mgdl, [entryT1]⟩
        (AddOutcome.success (JSValue.num 7)) 5).1.entries =
      { id := some 7, glucose := parseFloat "90", glucoseUnit := GlucoseUnit.mgdl,
        ketones := parseFloat "3",
        gki := calculateGKI (parseFloat "90") (parseFloat "3") GlucoseUnit.mgdl,
        timestamp := 5 } :: [entryT1] :=
  entries_created_not_updated.1 ⟨"90", "3", GlucoseUnit.mgdl, [entryT1]⟩ 5 7 (by decide)


end GKITracker
